import Mathlib

/-!
Verification development for the `go-pool` connection pool
(`channelPool` in channel pool source, `IdleConn` in conn.go, errors in pool.go).

Shallow embedding conventions:
* Time (`time.Time`, `time.Duration`) is modelled by `Nat` nanoseconds on a
  strictly monotone clock: every call to `time.Now()` is a `tick` that returns
  the current clock value and advances it.
* Resources (`interface{}` values produced by the factory) are `Nat` ids.
* Handles (`*IdleConn`) live on an explicit heap (`List IdleConn`) and are
  referenced by index, so that aliasing (two Puts of the same pointer) is
  modelled faithfully.
* The admission semaphore `queue chan struct{}` is modelled by its occupancy
  `queueLen`; a non-blocking acquire succeeds exactly when `queueLen` is below
  the capacity, and in this sequential model the `time.After` timeout branch of
  a `select` fires exactly when the channel operation would block.
* The idle-handle channel `conns chan *IdleConn` is a `List Nat` of handle ids
  (`none` models a nil channel); a non-blocking send succeeds exactly when the
  list is shorter than the channel capacity.
* User callbacks (factory / close / ping) return `Nat` error codes; the pool
  wraps them in `GoErr.userErr`, keeping them distinct from the package's
  sentinel errors.  The factory is a function of the invocation counter so a
  single pure function describes any sequence of factory outcomes.
* Ghost instrumentation (`factoryCalls`, `created`, `closedLog`) records how
  often the factory ran, how many resources it produced, and, in order, every
  resource passed to the user `close` callback.  It affects no control flow.
-/

namespace GoPool

/-- Sentinel errors of the package (pool.go) plus `userErr` for error values
produced by caller-supplied callbacks. -/
inductive GoErr where
  | poolClosed
  | poolTimeout
  | connClosed
  | connGenerateFailed
  | wrapConnNil
  | userErr (code : Nat)
deriving DecidableEq, Repr

/-- One handle (`IdleConn` in conn.go): the wrapped resource (`none` once
closed), the timestamp `t`, and whether the back-reference to the pool is set. -/
structure IdleConn where
  conn : Option Nat
  t : Nat
  pool : Bool
deriving DecidableEq, Repr

/-- `IdleConn.Get` (conn.go): the resource, or `ErrConnClosed` when closed. -/
def IdleConn.Get (i : IdleConn) : Except GoErr Nat :=
  match i.conn with
  | none => .error .connClosed
  | some c => .ok c

/-- `IdleConn.Close` (conn.go): clears the resource, the timestamp and the
pool back-reference; always succeeds. -/
def IdleConn.Close (_ : IdleConn) : IdleConn :=
  { conn := none, t := 0, pool := false }

/-- Immutable part of a constructed pool: capacities, timeouts and the
caller-supplied callbacks (fields `factory`, `close`, `ping`,
`idleTimeout`, ... of `channelPool`). -/
structure PoolEnv where
  maxCap : Nat
  queueCap : Nat
  idleTimeout : Nat
  poolTimeout : Int
  idleCheckFrequency : Int
  factory : Nat → Except Nat Nat
  close : Nat → Option Nat
  ping : Option (Nat → Option Nat)

/-- Mutable part of a `channelPool` plus the handle heap, the clock and the
ghost logs. -/
structure PoolState where
  clock : Nat
  initTime : Nat
  queueLen : Nat
  conns : Option (List Nat)
  heap : List IdleConn
  factoryCalls : Nat
  created : Nat
  closedLog : List Nat
deriving DecidableEq, Repr

/-- `time.Now()`: read the clock and advance it. -/
def tick (s : PoolState) : Nat × PoolState :=
  (s.clock, { s with clock := s.clock + 1 })

/-- Dereference a handle id; out-of-range ids behave like a closed handle. -/
def heapGet (s : PoolState) (hid : Nat) : IdleConn :=
  s.heap.getD hid { conn := none, t := 0, pool := false }

/-- Overwrite a handle on the heap. -/
def heapSet (s : PoolState) (hid : Nat) (c : IdleConn) : PoolState :=
  { s with heap := s.heap.set hid c }

/-- The direct field write `wrapConn.conn = nil` in `Get`. -/
def setConnNil (s : PoolState) (hid : Nat) : PoolState :=
  heapSet s hid { heapGet s hid with conn := none }

/-- Modelled from the spec: `NewIdleConn`, the handle constructor invoked by
`generateConn` and `Put`, is not among the provided source files; §4.3 of the
spec describes it as wrapping the resource in a new Handle stamped with the
given time and a reference to the pool.  Allocates a fresh heap slot and
returns its id. -/
def NewIdleConn (s : PoolState) (conn : Nat) (t : Nat) : Nat × PoolState :=
  (s.heap.length, { s with heap := s.heap ++ [{ conn := some conn, t := t, pool := true }] })

/-- `channelPool.Close`: fetch the resource (fail with `ErrConnClosed` if the
handle is closed), release one admission token (`freeTurn`), mark the handle
closed, then invoke the user `close` callback and return its result. -/
def ChannelPool.Close (env : PoolEnv) (s : PoolState) (hid : Nat) :
    Option GoErr × PoolState :=
  match (heapGet s hid).Get with
  | .error e => (some e, s)
  | .ok conn =>
    let s1 := { s with queueLen := s.queueLen - 1 }
    let s2 := heapSet s1 hid ((heapGet s1 hid).Close)
    let s3 := { s2 with closedLog := s2.closedLog ++ [conn] }
    ((env.close conn).map .userErr, s3)

/-- `channelPool.generateConn`: acquire an admission token (non-blocking here;
the `time.After` branch fires when the semaphore is full), invoke the factory,
on failure release the token and return the bare `ErrConnGenerateFailed`
sentinel (the factory error is discarded), on success wrap the resource in a
fresh handle stamped with the current time. -/
def ChannelPool.generateConn (env : PoolEnv) (s : PoolState) :
    Except GoErr Nat × PoolState :=
  if s.queueLen < env.queueCap then
    let s1 := { s with queueLen := s.queueLen + 1 }
    let k := s1.factoryCalls
    let s2 := { s1 with factoryCalls := k + 1 }
    match env.factory k with
    | .error _ => (.error .connGenerateFailed, { s2 with queueLen := s2.queueLen - 1 })
    | .ok conn =>
      let (now, s3) := tick s2
      let s4 := { s3 with created := s3.created + 1 }
      let (hid, s5) := NewIdleConn s4 conn now
      (.ok hid, s5)
  else
    (.error .poolTimeout, s)

/-- `channelPool.Ping`: `nil` when no probe is configured, `ErrConnClosed` on a
closed handle, otherwise the probe's result.  Mutates nothing. -/
def ChannelPool.Ping (env : PoolEnv) (s : PoolState) (hid : Nat) : Option GoErr :=
  match env.ping with
  | none => none
  | some p =>
    match (heapGet s hid).Get with
    | .error e => some e
    | .ok conn => (p conn).map .userErr

/-- `channelPool.Get`: `ErrPoolClosed` on a nil idle channel; otherwise try a
non-blocking receive.  A received live handle is closed and discarded when it
outlived `idleTimeout` or fails the liveness probe; a discarded (or already
dead) handle falls through to `generateConn`.  An empty queue goes straight to
`generateConn`. -/
def ChannelPool.Get (env : PoolEnv) (s : PoolState) : Except GoErr Nat × PoolState :=
  match s.conns with
  | none => (.error .poolClosed, s)
  | some [] => ChannelPool.generateConn env s
  | some (hid :: rest) =>
    let s0 : PoolState := { s with conns := some rest }
    let s1 :=
      if (heapGet s0 hid).conn.isSome then
        let s2 :=
          if 0 < env.idleTimeout then
            let (now, sa) := tick s0
            if (heapGet sa hid).t + env.idleTimeout < now then
              let (_, sb) := ChannelPool.Close env sa hid
              setConnNil sb hid
            else sa
          else s0
        if (ChannelPool.Ping env s2 hid).isSome then
          let (_, sc) := ChannelPool.Close env s2 hid
          setConnNil sc hid
        else s2
      else s0
    if (heapGet s1 hid).conn.isNone then ChannelPool.generateConn env s1
    else (.ok hid, s1)

/-- `channelPool.Put`: forward to `Close` when the idle channel is nil or the
handle predates `initTime` (generation guard); fail with the handle's error if
it is already closed; otherwise mark the wrapper closed, build a fresh handle
around the resource (the send value of the `select` is evaluated first), and
try a non-blocking enqueue — when the queue is full the code calls
`c.Close(wrapConn)` on the wrapper it has already marked closed (a no-op) and
reports success. -/
def ChannelPool.Put (env : PoolEnv) (s : PoolState) (hid : Nat) :
    Option GoErr × PoolState :=
  match s.conns with
  | none => ChannelPool.Close env s hid
  | some q =>
    if (heapGet s hid).t < s.initTime then ChannelPool.Close env s hid
    else
      match (heapGet s hid).Get with
      | .error e => (some e, s)
      | .ok conn =>
        let s1 := heapSet s hid ((heapGet s hid).Close)
        let (now, s2) := tick s1
        let (nid, s3) := NewIdleConn s2 conn now
        if q.length < env.maxCap then
          (none, { s3 with conns := some (q ++ [nid]) })
        else
          let (_, s4) := ChannelPool.Close env s3 hid
          (none, s4)

/-- `channelPool.Len`: occupancy of the idle channel, 0 when it is nil. -/
def ChannelPool.Len (s : PoolState) : Nat :=
  match s.conns with
  | none => 0
  | some q => q.length

/-- Drain loop of `Release`: close every handle of the old idle channel. -/
def drainClose (env : PoolEnv) : List Nat → PoolState → PoolState
  | [], s => s
  | hid :: rest, s => drainClose env rest (ChannelPool.Close env s hid).2

/-- `channelPool.Release`: swap in a fresh empty idle channel of the same
capacity, advance `initTime` to now, then close every handle of the old
channel. -/
def ChannelPool.Release (env : PoolEnv) (s : PoolState) : PoolState :=
  let old := s.conns
  let s1 : PoolState := { s with conns := some [] }
  let (now, s2) := tick s1
  let s3 := { s2 with initTime := now }
  match old with
  | none => s3
  | some q => drainClose env q s3

/-- `Config` (channel pool source): caller-facing construction parameters;
`none` callbacks model nil function fields. -/
structure Config where
  InitialCap : Int
  MaxCap : Int
  ConcurrentBase : Int
  Factory : Option (Nat → Except Nat Nat)
  Close : Option (Nat → Option Nat)
  Ping : Option (Nat → Option Nat)
  IdleTimeout : Nat
  PoolTimeout : Int
  IdleCheckFrequency : Int

/-- Construction-time failures of `NewChannelPool`: the three validation
errors and the wrapped fill failure (`factory is not able to fill the pool`). -/
inductive ConstructErr where
  | invalidCapacity
  | invalidFactory
  | invalidClose
  | fillFailed (e : GoErr)
deriving DecidableEq, Repr

/-- `PoolTimeoutInit = time.Second` in nanoseconds. -/
def PoolTimeoutInit : Int := 1000000000

/-- `IdleCheckInit = 30 * time.Minute` in nanoseconds. -/
def IdleCheckInit : Int := 1800000000000

/-- Blocking send `c.conns <- conn` of the constructor's fill loop (capacity is
never exceeded during construction). -/
def pushConn (s : PoolState) (hid : Nat) : PoolState :=
  match s.conns with
  | none => s
  | some q => { s with conns := some (q ++ [hid]) }

/-- Constructor fill loop: create `InitialCap` handles through `generateConn`
and enqueue them; on failure the pool is released and discarded and the error
is surfaced (to be wrapped by the constructor). -/
def fillLoop (env : PoolEnv) : Nat → PoolState → Except GoErr PoolState
  | 0, s => .ok s
  | n + 1, s =>
    match ChannelPool.generateConn env s with
    | (.error e, _) => .error e
    | (.ok hid, s1) => fillLoop env n (pushConn s1 hid)

/-- `NewChannelPool`: validate the config, apply the defaults
(`PoolTimeout` 1s, `IdleCheckFrequency` 30m, `ConcurrentBase` 2), allocate the
idle channel (capacity `MaxCap`) and the admission semaphore (capacity
`ConcurrentBase * MaxCap`), stamp `initTime`, then eagerly fill `InitialCap`
handles. -/
def NewChannelPool (cfg : Config) (startClock : Nat) :
    Except ConstructErr (PoolEnv × PoolState) :=
  if cfg.InitialCap < 0 ∨ cfg.MaxCap ≤ 0 ∨ cfg.InitialCap > cfg.MaxCap then
    .error .invalidCapacity
  else
    match cfg.Factory with
    | none => .error .invalidFactory
    | some f =>
      match cfg.Close with
      | none => .error .invalidClose
      | some cl =>
        let base := if cfg.ConcurrentBase ≤ 0 then 2 else cfg.ConcurrentBase
        let env : PoolEnv :=
          { maxCap := cfg.MaxCap.toNat
            queueCap := base.toNat * cfg.MaxCap.toNat
            idleTimeout := cfg.IdleTimeout
            poolTimeout := if cfg.PoolTimeout ≤ 0 then PoolTimeoutInit else cfg.PoolTimeout
            idleCheckFrequency :=
              if cfg.IdleCheckFrequency = 0 then IdleCheckInit else cfg.IdleCheckFrequency
            factory := f
            close := cl
            ping := cfg.Ping }
        let s0 : PoolState :=
          { clock := startClock, initTime := 0, queueLen := 0, conns := some []
            heap := [], factoryCalls := 0, created := 0, closedLog := [] }
        let (now, s1) := tick s0
        let s2 := { s1 with initTime := now }
        match fillLoop env cfg.InitialCap.toNat s2 with
        | .error e => .error (.fillFailed e)
        | .ok s3 => .ok (env, s3)

/-- One caller-visible pool operation, at an arbitrary handle id, plus clock
advancement for the passage of real time between operations. -/
inductive Step (env : PoolEnv) : PoolState → PoolState → Prop where
  | get (s : PoolState) : Step env s (ChannelPool.Get env s).2
  | put (s : PoolState) (hid : Nat) : Step env s (ChannelPool.Put env s hid).2
  | close (s : PoolState) (hid : Nat) : Step env s (ChannelPool.Close env s hid).2
  | release (s : PoolState) : Step env s (ChannelPool.Release env s)
  | advance (s : PoolState) (d : Nat) : Step env s { s with clock := s.clock + d }

/-- States reachable from `s0` by any sequence of pool operations. -/
def Reachable (env : PoolEnv) (s0 s : PoolState) : Prop :=
  Relation.ReflTransGen (Step env) s0 s

/-- Number of live (un-closed) handles on the heap. -/
def liveHandles (s : PoolState) : Nat :=
  s.heap.countP (fun h => h.conn.isSome)

/-- Resources produced by the factory whose `close` callback has not run. -/
def liveResources (s : PoolState) : Nat :=
  s.created - s.closedLog.length

/-- Inductive invariant of a constructed pool: token accounting ties created
resources to callback invocations plus held admission tokens; live handles are
bounded by held tokens; tokens are bounded by the semaphore capacity; the idle
channel is non-nil and within its capacity. -/
structure PoolInv (env : PoolEnv) (s : PoolState) : Prop where
  acct : s.created = s.closedLog.length + s.queueLen
  live_le : liveHandles s ≤ s.queueLen
  cap_le : s.queueLen ≤ env.queueCap
  conns_le : ∃ q, s.conns = some q ∧ q.length ≤ env.maxCap

/-! ### Heap and list helper lemmas -/

lemma heapGet_def (s : PoolState) (hid : Nat) :
    heapGet s hid = s.heap.getD hid { conn := none, t := 0, pool := false } := rfl

lemma heapGet_lt_of_live {s : PoolState} {hid : Nat} {r : Nat}
    (h : (heapGet s hid).conn = some r) : hid < s.heap.length := by
  by_contra hn
  rw [heapGet_def, List.getD_eq_getElem?_getD, List.getElem?_eq_none (by omega)] at h
  simp at h

lemma heapGet_eq_getElem {s : PoolState} {hid : Nat} (h : hid < s.heap.length) :
    heapGet s hid = s.heap[hid] := by
  rw [heapGet_def, List.getD_eq_getElem?_getD, List.getElem?_eq_getElem h]
  rfl

lemma getD_set_self {α : Type} {l : List α} {i : Nat} (h : i < l.length) (a d : α) :
    (l.set i a).getD i d = a := by
  rw [List.getD_eq_getElem?_getD, List.getElem?_set_self h]
  rfl

lemma getD_set_append_self {α : Type} {l l2 : List α} {i : Nat} (h : i < l.length) (a d : α) :
    ((l.set i a) ++ l2).getD i d = a := by
  rw [List.getD_eq_getElem?_getD,
    List.getElem?_append_left (by rw [List.length_set]; exact h),
    List.getElem?_set_self h]
  rfl

lemma countP_set_of_lt {α : Type} (p : α → Bool) (l : List α) (i : Nat) (a : α)
    (h : i < l.length) :
    (l.set i a).countP p + (if p l[i] then 1 else 0) =
      l.countP p + (if p a then 1 else 0) := by
  induction l generalizing i with
  | nil => simp at h
  | cons x xs ih =>
    cases i with
    | zero =>
      simp only [List.set, List.countP_cons, List.getElem_cons_zero]
      omega
    | succ n =>
      have hn : n < xs.length := by simpa using h
      simp only [List.set, List.countP_cons, List.getElem_cons_succ]
      have := ih n hn
      omega

lemma countP_set_le {α : Type} {p : α → Bool} {a : α} (hpa : p a = false)
    (l : List α) (i : Nat) :
    (l.set i a).countP p ≤ l.countP p := by
  induction l generalizing i with
  | nil => simp
  | cons x xs ih =>
    cases i with
    | zero => simp [List.set, List.countP_cons, hpa]
    | succ n =>
      simp only [List.set, List.countP_cons]
      exact Nat.add_le_add_right (ih n) _

lemma liveHandles_close_at {s : PoolState} {hid : Nat} {r : Nat}
    (h : (heapGet s hid).conn = some r) :
    liveHandles (heapSet s hid { conn := none, t := 0, pool := false }) + 1 =
      liveHandles s := by
  have hlt := heapGet_lt_of_live h
  have hc := countP_set_of_lt (fun h => h.conn.isSome) s.heap hid
    { conn := none, t := 0, pool := false } hlt
  rw [← heapGet_eq_getElem hlt, h] at hc
  simpa [liveHandles, heapSet] using hc

lemma liveHandles_pos_of_live {s : PoolState} {hid : Nat} {r : Nat}
    (h : (heapGet s hid).conn = some r) : 0 < liveHandles s := by
  have hlt := heapGet_lt_of_live h
  refine List.countP_pos_iff.mpr ⟨s.heap[hid], List.getElem_mem hlt, ?_⟩
  rw [← heapGet_eq_getElem hlt, h]
  rfl

/-! ### Characterization lemmas for the individual operations -/

lemma close_of_closed {env : PoolEnv} {s : PoolState} {hid : Nat}
    (h : (heapGet s hid).conn = none) :
    ChannelPool.Close env s hid = (some .connClosed, s) := by
  unfold ChannelPool.Close
  rw [show (heapGet s hid).Get = .error .connClosed by unfold IdleConn.Get; rw [h]]

lemma close_of_live {env : PoolEnv} {s : PoolState} {hid : Nat} {r t : Nat} {pb : Bool}
    (h : heapGet s hid = ⟨some r, t, pb⟩) :
    ChannelPool.Close env s hid =
      ((env.close r).map .userErr,
       { s with queueLen := s.queueLen - 1,
                heap := s.heap.set hid { conn := none, t := 0, pool := false },
                closedLog := s.closedLog ++ [r] }) := by
  unfold ChannelPool.Close
  rw [show (heapGet s hid).Get = .ok r by unfold IdleConn.Get; rw [h]]
  rfl

lemma generate_timeout {env : PoolEnv} {s : PoolState}
    (h : env.queueCap ≤ s.queueLen) :
    ChannelPool.generateConn env s = (.error .poolTimeout, s) := by
  unfold ChannelPool.generateConn
  rw [if_neg (by omega)]

lemma generate_factory_error {env : PoolEnv} {s : PoolState} {e : Nat}
    (h1 : s.queueLen < env.queueCap) (h2 : env.factory s.factoryCalls = .error e) :
    ChannelPool.generateConn env s =
      (.error .connGenerateFailed, { s with factoryCalls := s.factoryCalls + 1 }) := by
  unfold ChannelPool.generateConn
  rw [if_pos h1]
  simp only [h2]
  rfl

lemma generate_factory_ok {env : PoolEnv} {s : PoolState} {r : Nat}
    (h1 : s.queueLen < env.queueCap) (h2 : env.factory s.factoryCalls = .ok r) :
    ChannelPool.generateConn env s =
      (.ok s.heap.length,
       { s with queueLen := s.queueLen + 1, factoryCalls := s.factoryCalls + 1,
                clock := s.clock + 1, created := s.created + 1,
                heap := s.heap ++ [{ conn := some r, t := s.clock, pool := true }] }) := by
  unfold ChannelPool.generateConn
  rw [if_pos h1]
  simp only [h2, tick, NewIdleConn]

/-- C9 helper: the three sentinel shapes `Close` can return. -/
lemma close_fst_shape (env : PoolEnv) (s : PoolState) (hid : Nat) :
    (ChannelPool.Close env s hid).1 = some .connClosed ∨
      (ChannelPool.Close env s hid).1 = none ∨
      ∃ c, (ChannelPool.Close env s hid).1 = some (.userErr c) := by
  rcases hc : (heapGet s hid).conn with _ | v
  · left
    rw [close_of_closed hc]
  · have hh : heapGet s hid = ⟨some v, (heapGet s hid).t, (heapGet s hid).pool⟩ := by
      rw [← hc]
    rw [close_of_live hh]
    rcases hcl : env.close v with _ | c
    · right; left; simp [hcl]
    · right; right; exact ⟨c, by simp [hcl]⟩

lemma close_conns (env : PoolEnv) (s : PoolState) (hid : Nat) :
    (ChannelPool.Close env s hid).2.conns = s.conns := by
  unfold ChannelPool.Close
  rcases (heapGet s hid).Get with _ | c <;> rfl

lemma put_of_nil_conns {env : PoolEnv} {s : PoolState} {hid : Nat}
    (hq : s.conns = none) :
    ChannelPool.Put env s hid = ChannelPool.Close env s hid := by
  unfold ChannelPool.Put
  rw [hq]

lemma put_of_stale {env : PoolEnv} {s : PoolState} {hid : Nat} {q : List Nat}
    (hq : s.conns = some q) (ht : (heapGet s hid).t < s.initTime) :
    ChannelPool.Put env s hid = ChannelPool.Close env s hid := by
  unfold ChannelPool.Put
  simp only [hq]
  rw [if_pos ht]

lemma put_of_closed {env : PoolEnv} {s : PoolState} {hid : Nat}
    (h : (heapGet s hid).conn = none) :
    ChannelPool.Put env s hid = (some .connClosed, s) := by
  unfold ChannelPool.Put
  cases hc : s.conns with
  | none => exact close_of_closed h
  | some q =>
    simp only [hc]
    by_cases ht : (heapGet s hid).t < s.initTime
    · rw [if_pos ht]
      exact close_of_closed h
    · rw [if_neg ht, show (heapGet s hid).Get = .error .connClosed by
        unfold IdleConn.Get; rw [h]]

lemma put_enqueue {env : PoolEnv} {s : PoolState} {hid : Nat} {q : List Nat}
    {r t : Nat} {pb : Bool}
    (h : heapGet s hid = ⟨some r, t, pb⟩) (ht : ¬ t < s.initTime)
    (hq : s.conns = some q) (hlen : q.length < env.maxCap) :
    ChannelPool.Put env s hid =
      (none,
       { s with clock := s.clock + 1,
                heap := s.heap.set hid { conn := none, t := 0, pool := false } ++
                  [{ conn := some r, t := s.clock, pool := true }],
                conns := some (q ++ [s.heap.length]) }) := by
  unfold ChannelPool.Put
  simp only [hq]
  rw [if_neg (by rw [h]; exact ht), show (heapGet s hid).Get = .ok r by
    unfold IdleConn.Get; rw [h]]
  simp only [tick, NewIdleConn, heapSet, IdleConn.Close]
  rw [if_pos hlen]
  simp [List.length_set]

lemma put_full {env : PoolEnv} {s : PoolState} {hid : Nat} {q : List Nat}
    {r t : Nat} {pb : Bool}
    (h : heapGet s hid = ⟨some r, t, pb⟩) (ht : ¬ t < s.initTime)
    (hq : s.conns = some q) (hlen : ¬ q.length < env.maxCap) :
    ChannelPool.Put env s hid =
      (none,
       { s with clock := s.clock + 1,
                heap := s.heap.set hid { conn := none, t := 0, pool := false } ++
                  [{ conn := some r, t := s.clock, pool := true }] }) := by
  have hlt : hid < s.heap.length := heapGet_lt_of_live (by rw [h])
  unfold ChannelPool.Put
  simp only [hq]
  rw [if_neg (by rw [h]; exact ht), show (heapGet s hid).Get = .ok r by
    unfold IdleConn.Get; rw [h]]
  simp only [tick, NewIdleConn, heapSet, IdleConn.Close]
  rw [if_neg hlen]
  rw [close_of_closed (by
    rw [heapGet_def]
    show (((s.heap.set hid _) ++ _).getD hid _).conn = none
    rw [getD_set_append_self hlt])]
  simp [hq]

/-! ### Claim theorems: C9, C8, C3, C1 -/

/-- C9: `Pool.Close` on an already-closed handle fails with `HandleClosed`
(`ErrConnClosed`) and leaves all state unchanged — no admission token released,
no teardown invoked; on a live handle it releases exactly one admission token,
marks the handle closed, invokes the teardown callback on the resource and
returns its result (the token is released whatever the callback returns, i.e.
before teardown runs). -/
theorem c9_close_idempotent_spec (env : PoolEnv) (s : PoolState) (hid : Nat) :
    ((heapGet s hid).conn = none →
        ChannelPool.Close env s hid = (some .connClosed, s)) ∧
    (∀ r t pb, heapGet s hid = ⟨some r, t, pb⟩ → 0 < s.queueLen →
        ChannelPool.Close env s hid =
          ((env.close r).map .userErr,
           { s with queueLen := s.queueLen - 1,
                    heap := s.heap.set hid { conn := none, t := 0, pool := false },
                    closedLog := s.closedLog ++ [r] }) ∧
        (ChannelPool.Close env s hid).2.queueLen + 1 = s.queueLen) := by
  constructor
  · intro h
    exact close_of_closed h
  · intro r t pb h hq
    refine ⟨close_of_live h, ?_⟩
    rw [close_of_live h]
    show s.queueLen - 1 + 1 = s.queueLen
    omega

/-- C8: when `generateConn` takes the timeout branch (the admission semaphore
is full, so the send would block), it fails with `PoolTimeout` and the state is
completely unchanged — the factory is not invoked and no token is held; `Get`
on an empty idle queue inherits this. -/
theorem c8_generate_timeout (env : PoolEnv) (s : PoolState)
    (h : env.queueCap ≤ s.queueLen) :
    ChannelPool.generateConn env s = (.error .poolTimeout, s) ∧
    (s.conns = some [] → ChannelPool.Get env s = (.error .poolTimeout, s)) := by
  refine ⟨generate_timeout h, fun hc => ?_⟩
  unfold ChannelPool.Get
  rw [hc]
  exact generate_timeout h

/-- C3 counterexample: `generateConn` does not preserve the underlying factory
error.  Two environments whose factories fail with different error codes (7
and 8) produce literally identical results, and the returned error is the bare
`connGenerateFailed` sentinel, which carries no underlying error. -/
theorem c3_generate_failed_not_preserving :
    ChannelPool.generateConn
        { maxCap := 1, queueCap := 2, idleTimeout := 0, poolTimeout := 1,
          idleCheckFrequency := 1, factory := fun _ => .error 7,
          close := fun _ => none, ping := none }
        { clock := 0, initTime := 0, queueLen := 0, conns := some [], heap := [],
          factoryCalls := 0, created := 0, closedLog := [] } =
      ChannelPool.generateConn
        { maxCap := 1, queueCap := 2, idleTimeout := 0, poolTimeout := 1,
          idleCheckFrequency := 1, factory := fun _ => .error 8,
          close := fun _ => none, ping := none }
        { clock := 0, initTime := 0, queueLen := 0, conns := some [], heap := [],
          factoryCalls := 0, created := 0, closedLog := [] } ∧
    (ChannelPool.generateConn
        { maxCap := 1, queueCap := 2, idleTimeout := 0, poolTimeout := 1,
          idleCheckFrequency := 1, factory := fun _ => .error 7,
          close := fun _ => none, ping := none }
        { clock := 0, initTime := 0, queueLen := 0, conns := some [], heap := [],
          factoryCalls := 0, created := 0, closedLog := [] }).1 =
      .error .connGenerateFailed ∧
    GoErr.connGenerateFailed ≠ .userErr 7 := by
  refine ⟨rfl, rfl, by decide⟩

/-- C3 (amended): when the factory fails inside `generateConn`, the
just-acquired admission token is released before returning (the state is
unchanged except for the ghost invocation counter, so semaphore occupancy is
restored), and the call fails with the `ConnGenerateFailed` sentinel — which
discards, rather than wraps, the underlying factory error. -/
theorem c3_generate_failed_releases_token (env : PoolEnv) (s : PoolState) (e : Nat)
    (h1 : s.queueLen < env.queueCap) (h2 : env.factory s.factoryCalls = .error e) :
    ChannelPool.generateConn env s =
      (.error .connGenerateFailed, { s with factoryCalls := s.factoryCalls + 1 }) ∧
    (ChannelPool.generateConn env s).2.queueLen = s.queueLen ∧
    (ChannelPool.generateConn env s).2.created = s.created := by
  refine ⟨generate_factory_error h1 h2, ?_, ?_⟩ <;> rw [generate_factory_error h1 h2]

/-- Concrete environment for the C1 evaluation: idle-queue capacity 1,
admission capacity 2, a `close` callback that always succeeds. -/
def putFullEnv : PoolEnv :=
  { maxCap := 1, queueCap := 2, idleTimeout := 0, poolTimeout := 1,
    idleCheckFrequency := 1, factory := fun n => .ok n,
    close := fun _ => none, ping := none }

/-- Concrete state for the C1 evaluation: the idle queue is full (it holds
handle 0), handle 1 is live and checked out, and both admission tokens are
held. -/
def putFullState : PoolState :=
  { clock := 10, initTime := 1, queueLen := 2, conns := some [0],
    heap := [⟨some 100, 2, true⟩, ⟨some 101, 3, true⟩],
    factoryCalls := 2, created := 2, closedLog := [] }

/-- C1: evaluation of `Put` of the live handle 1 into a pool whose idle queue
is full.  `Put` reports success and marks the wrapper closed, but — contrary
to the claim and to the code's own comment at the full-queue branch — no
admission token is released (`queueLen` stays 2) and the teardown callback is
never invoked (`closedLog` stays empty): `wrapConn.Close()` ran before the
enqueue attempt, so the subsequent `c.Close(wrapConn)` is a no-op.  The
resource and its token are leaked. -/
theorem c1_put_full_queue_eval :
    ChannelPool.Put putFullEnv putFullState 1 =
      (none,
       { clock := 11, initTime := 1, queueLen := 2, conns := some [0],
         heap := [⟨some 100, 2, true⟩, ⟨none, 0, false⟩, ⟨some 101, 10, true⟩],
         factoryCalls := 2, created := 2, closedLog := [] }) ∧
    (ChannelPool.Put putFullEnv putFullState 1).2.queueLen = putFullState.queueLen ∧
    (ChannelPool.Put putFullEnv putFullState 1).2.closedLog = putFullState.closedLog ∧
    (heapGet (ChannelPool.Put putFullEnv putFullState 1).2 1).conn = none := by
  refine ⟨by decide, by decide, by decide, by decide⟩

/-- Shared fixture for the witnesses: an environment whose factory always
fails with user error code 7 and whose `close` callback succeeds. -/
def envW : PoolEnv :=
  { maxCap := 2, queueCap := 4, idleTimeout := 0, poolTimeout := 1,
    idleCheckFrequency := 1, factory := fun _ => .error 7,
    close := fun _ => none, ping := none }

/-- Fixture: a pool whose only handle (id 0) is already closed. -/
def stClosedW : PoolState :=
  { clock := 0, initTime := 0, queueLen := 1, conns := some [], heap := [⟨none, 0, false⟩],
    factoryCalls := 0, created := 0, closedLog := [] }

/-- Fixture: a pool whose only handle (id 0) is live with resource 5. -/
def stLiveW : PoolState :=
  { clock := 0, initTime := 0, queueLen := 1, conns := some [], heap := [⟨some 5, 3, true⟩],
    factoryCalls := 0, created := 1, closedLog := [] }

/-- Fixture: a pool whose admission semaphore is full (4 of 4 tokens held). -/
def stFullQW : PoolState :=
  { clock := 0, initTime := 0, queueLen := 4, conns := some [], heap := [],
    factoryCalls := 0, created := 4, closedLog := [] }

/-- Fixture: a freshly reset pool holding no tokens. -/
def stFreeW : PoolState :=
  { clock := 0, initTime := 0, queueLen := 0, conns := some [], heap := [],
    factoryCalls := 0, created := 0, closedLog := [] }

lemma drain_conns (env : PoolEnv) (q : List Nat) :
    ∀ s : PoolState, (drainClose env q s).conns = s.conns := by
  induction q with
  | nil => intro s; rfl
  | cons hid rest ih =>
    intro s
    rw [drainClose, ih, close_conns]

lemma release_len (env : PoolEnv) (s : PoolState) :
    ChannelPool.Len (ChannelPool.Release env s) = 0 := by
  unfold ChannelPool.Release
  cases hc : s.conns with
  | none =>
    simp only [hc, tick]
    rfl
  | some q =>
    simp only [hc, tick]
    unfold ChannelPool.Len
    rw [drain_conns]
    rfl

/-- C4: a live handle whose timestamp predates `initTime` (the generation
start, advanced by each `Release`) is closed by `Put` instead of re-enqueued:
the idle queue is untouched, the close callback fires exactly once on its
resource, one admission token is released, the handle ends closed — and
immediately after `Release()` the idle queue is empty, so `Len()` reflects
only handles created after the release. -/
theorem c4_put_stale_generation_closes (env : PoolEnv) (s : PoolState)
    (hid r t : Nat) (pb : Bool) (q : List Nat)
    (h : heapGet s hid = ⟨some r, t, pb⟩) (ht : t < s.initTime)
    (hq : s.conns = some q) (hpos : 0 < s.queueLen) :
    ChannelPool.Put env s hid =
      ((env.close r).map .userErr,
       { s with queueLen := s.queueLen - 1,
                heap := s.heap.set hid { conn := none, t := 0, pool := false },
                closedLog := s.closedLog ++ [r] }) ∧
    (ChannelPool.Put env s hid).2.conns = s.conns ∧
    (ChannelPool.Put env s hid).2.closedLog = s.closedLog ++ [r] ∧
    (ChannelPool.Put env s hid).2.queueLen + 1 = s.queueLen ∧
    (heapGet (ChannelPool.Put env s hid).2 hid).conn = none ∧
    ChannelPool.Len (ChannelPool.Release env s) = 0 := by
  have hlt : hid < s.heap.length := heapGet_lt_of_live (by rw [h])
  have hput : ChannelPool.Put env s hid = ChannelPool.Close env s hid :=
    put_of_stale hq (by rw [h]; exact ht)
  rw [hput, close_of_live h]
  refine ⟨rfl, rfl, rfl, ?_, ?_, release_len env s⟩
  · show s.queueLen - 1 + 1 = s.queueLen
    omega
  · rw [heapGet_def]
    show ((s.heap.set hid _).getD hid _).conn = none
    rw [getD_set_self hlt]

/-- C5: once a live handle has been successfully `Put` back, a second `Put` of
the same handle returns `ErrConnClosed` and changes nothing, and across both
calls the pool's close callback ran at most once on the handle's resource
(in fact the first `Put` either recycles the resource without any callback, or
— on the stale-generation/nil-queue path — invokes it exactly once). -/
theorem c5_double_put_conn_closed (env : PoolEnv) (s : PoolState)
    (hid r t : Nat) (pb : Bool)
    (h : heapGet s hid = ⟨some r, t, pb⟩)
    (_hput : (ChannelPool.Put env s hid).1 = none) :
    ChannelPool.Put env (ChannelPool.Put env s hid).2 hid =
      (some .connClosed, (ChannelPool.Put env s hid).2) ∧
    ((ChannelPool.Put env s hid).2.closedLog = s.closedLog ∨
     (ChannelPool.Put env s hid).2.closedLog = s.closedLog ++ [r]) := by
  have hlt : hid < s.heap.length := heapGet_lt_of_live (by rw [h])
  have key : (heapGet (ChannelPool.Put env s hid).2 hid).conn = none ∧
      ((ChannelPool.Put env s hid).2.closedLog = s.closedLog ∨
       (ChannelPool.Put env s hid).2.closedLog = s.closedLog ++ [r]) := by
    cases hc : s.conns with
    | none =>
      rw [put_of_nil_conns hc, close_of_live h]
      refine ⟨?_, Or.inr rfl⟩
      rw [heapGet_def]
      show ((s.heap.set hid _).getD hid _).conn = none
      rw [getD_set_self hlt]
    | some q =>
      by_cases ht : t < s.initTime
      · rw [put_of_stale hc (by rw [h]; exact ht), close_of_live h]
        refine ⟨?_, Or.inr rfl⟩
        rw [heapGet_def]
        show ((s.heap.set hid _).getD hid _).conn = none
        rw [getD_set_self hlt]
      · by_cases hlen : q.length < env.maxCap
        · rw [put_enqueue h ht hc hlen]
          refine ⟨?_, Or.inl rfl⟩
          rw [heapGet_def]
          show (((s.heap.set hid _) ++ _).getD hid _).conn = none
          rw [getD_set_append_self hlt]
        · rw [put_full h ht hc hlen]
          refine ⟨?_, Or.inl rfl⟩
          rw [heapGet_def]
          show (((s.heap.set hid _) ++ _).getD hid _).conn = none
          rw [getD_set_append_self hlt]
  exact ⟨put_of_closed key.1, key.2⟩

lemma generate_fresh {env : PoolEnv} {s : PoolState} {h' : Nat}
    (hok : (ChannelPool.generateConn env s).1 = .ok h') : h' = s.heap.length := by
  unfold ChannelPool.generateConn at hok
  by_cases hq : s.queueLen < env.queueCap
  · rw [if_pos hq] at hok
    rcases hf : env.factory s.factoryCalls with e | c <;> simp only [hf] at hok
    · exact absurd hok (by simp)
    · simpa [tick, NewIdleConn] using hok.symm
  · rw [if_neg hq] at hok
    exact absurd hok (by simp)

lemma generate_closedLog (env : PoolEnv) (s : PoolState) :
    (ChannelPool.generateConn env s).2.closedLog = s.closedLog := by
  unfold ChannelPool.generateConn
  by_cases hq : s.queueLen < env.queueCap
  · rw [if_pos hq]
    rcases hf : env.factory s.factoryCalls with e | c <;> simp [hf, tick, NewIdleConn]
  · rw [if_neg hq]

lemma generate_error_shape {env : PoolEnv} {s : PoolState} {e : GoErr}
    (he : (ChannelPool.generateConn env s).1 = .error e) :
    (e = .poolTimeout ∨ e = .connGenerateFailed) ∧
      (ChannelPool.generateConn env s).2.queueLen = s.queueLen := by
  unfold ChannelPool.generateConn at he ⊢
  by_cases hq : s.queueLen < env.queueCap
  · rw [if_pos hq] at he ⊢
    rcases hf : env.factory s.factoryCalls with e' | c <;> simp only [hf] at he ⊢
    · exact ⟨Or.inr (by simpa using he.symm), rfl⟩
    · exact absurd he (by simp [tick, NewIdleConn])
  · rw [if_neg hq] at he ⊢
    exact ⟨Or.inl (by simpa using he.symm), rfl⟩

lemma generate_queueLen_ok {env : PoolEnv} {s : PoolState} {h' : Nat}
    (hok : (ChannelPool.generateConn env s).1 = .ok h') :
    (ChannelPool.generateConn env s).2.queueLen = s.queueLen + 1 := by
  unfold ChannelPool.generateConn at hok ⊢
  by_cases hq : s.queueLen < env.queueCap
  · rw [if_pos hq] at hok ⊢
    rcases hf : env.factory s.factoryCalls with e | c <;> simp only [hf] at hok ⊢
    · exact absurd hok (by simp)
    · simp [tick, NewIdleConn]
  · rw [if_neg hq] at hok
    exact absurd hok (by simp)

/-- C6 core: dequeuing a live handle that has sat idle longer than
`idleTimeout` closes it (one token release, one callback invocation) and falls
through to `generateConn` on the post-eviction state. -/
lemma get_stale_evicts {env : PoolEnv} {s : PoolState} {hid : Nat} {rest : List Nat}
    {r t : Nat} {pb : Bool}
    (hconns : s.conns = some (hid :: rest))
    (h : heapGet s hid = ⟨some r, t, pb⟩)
    (hto : 0 < env.idleTimeout)
    (hstale : t + env.idleTimeout < s.clock) :
    ChannelPool.Get env s =
      ChannelPool.generateConn env
        { s with conns := some rest, clock := s.clock + 1,
                 queueLen := s.queueLen - 1,
                 heap := s.heap.set hid { conn := none, t := 0, pool := false },
                 closedLog := s.closedLog ++ [r] } := by
  have hlt : hid < s.heap.length := heapGet_lt_of_live (by rw [h])
  have hg2 : s.heap[hid]? = some ⟨some r, t, pb⟩ := by
    rw [List.getElem?_eq_getElem hlt, ← heapGet_eq_getElem hlt, h]
  have hs2 : (s.heap.set hid { conn := none, t := 0, pool := false })[hid]? =
      some { conn := none, t := 0, pool := false } :=
    List.getElem?_set_self hlt
  unfold ChannelPool.Get
  rcases hping : env.ping with _ | p <;>
    simp [hconns, heapGet_def, heapSet, setConnNil, tick, ChannelPool.Close,
      ChannelPool.Ping, IdleConn.Get, IdleConn.Close, hg2, hs2, hping, hto, hstale,
      List.set_set]

/-- C6: with `idleTimeout > 0`, when `Get` dequeues an idle handle whose
timestamp is more than `idleTimeout` before now, the caller never receives
that handle: any successful result is a freshly allocated handle (its id did
not exist before the call), the stale handle's close callback runs exactly
once, and its admission token is released (on success a new token replaces it;
on `PoolTimeout`/`ConnGenerateFailed` the occupancy drops by one). -/
theorem c6_get_stale_idle_replaced (env : PoolEnv) (s : PoolState)
    (hid : Nat) (rest : List Nat) (r t : Nat) (pb : Bool)
    (hconns : s.conns = some (hid :: rest))
    (h : heapGet s hid = ⟨some r, t, pb⟩)
    (hto : 0 < env.idleTimeout)
    (hstale : t + env.idleTimeout < s.clock)
    (hpos : 0 < s.queueLen) :
    (∀ h', (ChannelPool.Get env s).1 = .ok h' → hid ≠ h' ∧ s.heap.length ≤ h') ∧
    (ChannelPool.Get env s).2.closedLog = s.closedLog ++ [r] ∧
    (∀ e, (ChannelPool.Get env s).1 = .error e →
      (e = .poolTimeout ∨ e = .connGenerateFailed) ∧
      (ChannelPool.Get env s).2.queueLen + 1 = s.queueLen) ∧
    (∀ h', (ChannelPool.Get env s).1 = .ok h' →
      (ChannelPool.Get env s).2.queueLen = s.queueLen) := by
  have hlt : hid < s.heap.length := heapGet_lt_of_live (by rw [h])
  rw [get_stale_evicts hconns h hto hstale]
  refine ⟨?_, ?_, ?_, ?_⟩
  · intro h' hok
    have := generate_fresh hok
    simp only [List.length_set] at this
    omega
  · rw [generate_closedLog]
  · intro e he
    have := generate_error_shape he
    refine ⟨this.1, ?_⟩
    rw [this.2]
    show s.queueLen - 1 + 1 = s.queueLen
    omega
  · intro h' hok
    rw [generate_queueLen_ok hok]
    show s.queueLen - 1 + 1 = s.queueLen
    omega

/-- Fixture for the C6 witness: `idleTimeout = 5`, an always-succeeding
factory. -/
def envIdleW : PoolEnv :=
  { maxCap := 1, queueCap := 2, idleTimeout := 5, poolTimeout := 1,
    idleCheckFrequency := 1, factory := fun n => .ok (n + 50),
    close := fun _ => none, ping := none }

/-- Fixture for the C6 witness: handle 0 (resource 7, stamped at `t = 10`) sits
in the idle queue while the clock reads 100, far beyond the idle timeout. -/
def stStaleW : PoolState :=
  { clock := 100, initTime := 1, queueLen := 1, conns := some [0],
    heap := [⟨some 7, 10, true⟩], factoryCalls := 0, created := 1, closedLog := [] }

/-- Witness for C6 at a concrete input: the stale handle 0 is evicted, its
resource 7 is torn down exactly once, and the caller gets a fresh handle. -/
theorem c6_get_stale_idle_replaced_witness :
    (∀ h', (ChannelPool.Get envIdleW stStaleW).1 = .ok h' →
        0 ≠ h' ∧ stStaleW.heap.length ≤ h') ∧
    (ChannelPool.Get envIdleW stStaleW).2.closedLog = stStaleW.closedLog ++ [7] ∧
    (∀ e, (ChannelPool.Get envIdleW stStaleW).1 = .error e →
      (e = .poolTimeout ∨ e = .connGenerateFailed) ∧
      (ChannelPool.Get envIdleW stStaleW).2.queueLen + 1 = stStaleW.queueLen) ∧
    (∀ h', (ChannelPool.Get envIdleW stStaleW).1 = .ok h' →
      (ChannelPool.Get envIdleW stStaleW).2.queueLen = stStaleW.queueLen) :=
  c6_get_stale_idle_replaced envIdleW stStaleW 0 [] 7 10 true rfl rfl
    (by decide) (by decide) (by decide)

/-- Fixture: a pool one `Release` old — its only handle (id 0, resource 9) was
created before the current generation (`t = 2 < initTime = 4`). -/
def stOldGenW : PoolState :=
  { clock := 5, initTime := 4, queueLen := 1, conns := some [], heap := [⟨some 9, 2, true⟩],
    factoryCalls := 1, created := 1, closedLog := [] }

/-- Witness for C4 at a concrete input: a stale-generation handle is closed by
`Put`, not re-enqueued, and `Release` empties the queue. -/
theorem c4_put_stale_generation_closes_witness :
    ChannelPool.Put envW stOldGenW 0 =
      ((envW.close 9).map .userErr,
       { stOldGenW with queueLen := stOldGenW.queueLen - 1,
                        heap := stOldGenW.heap.set 0 { conn := none, t := 0, pool := false },
                        closedLog := stOldGenW.closedLog ++ [9] }) ∧
    (ChannelPool.Put envW stOldGenW 0).2.conns = stOldGenW.conns ∧
    (ChannelPool.Put envW stOldGenW 0).2.closedLog = stOldGenW.closedLog ++ [9] ∧
    (ChannelPool.Put envW stOldGenW 0).2.queueLen + 1 = stOldGenW.queueLen ∧
    (heapGet (ChannelPool.Put envW stOldGenW 0).2 0).conn = none ∧
    ChannelPool.Len (ChannelPool.Release envW stOldGenW) = 0 :=
  c4_put_stale_generation_closes envW stOldGenW 0 9 2 true [] rfl (by decide) rfl (by decide)

/-- Witness for C5 at a concrete input: handle 0 of `stLiveW` is Put back
(successfully, into the empty queue), and a second Put yields `ErrConnClosed`
with no callback invocation at all. -/
theorem c5_double_put_conn_closed_witness :
    ChannelPool.Put envW (ChannelPool.Put envW stLiveW 0).2 0 =
      (some .connClosed, (ChannelPool.Put envW stLiveW 0).2) ∧
    ((ChannelPool.Put envW stLiveW 0).2.closedLog = stLiveW.closedLog ∨
     (ChannelPool.Put envW stLiveW 0).2.closedLog = stLiveW.closedLog ++ [5]) :=
  c5_double_put_conn_closed envW stLiveW 0 5 3 true rfl (by decide)

/-- Witness for C9 at concrete inputs: both the closed-handle branch and the
live-handle branch. -/
theorem c9_close_idempotent_spec_witness :
    ChannelPool.Close envW stClosedW 0 = (some .connClosed, stClosedW) ∧
    (ChannelPool.Close envW stLiveW 0 =
      ((envW.close 5).map .userErr,
       { stLiveW with queueLen := stLiveW.queueLen - 1,
                      heap := stLiveW.heap.set 0 { conn := none, t := 0, pool := false },
                      closedLog := stLiveW.closedLog ++ [5] }) ∧
     (ChannelPool.Close envW stLiveW 0).2.queueLen + 1 = stLiveW.queueLen) :=
  ⟨(c9_close_idempotent_spec envW stClosedW 0).1 rfl,
   (c9_close_idempotent_spec envW stLiveW 0).2 5 3 true rfl (by decide)⟩

/-- Witness for C8 at a concrete input: the admission semaphore is full, the
idle queue is empty, and both `generateConn` and `Get` time out leaving the
state untouched. -/
theorem c8_generate_timeout_witness :
    ChannelPool.generateConn envW stFullQW = (.error .poolTimeout, stFullQW) ∧
    (stFullQW.conns = some [] →
      ChannelPool.Get envW stFullQW = (.error .poolTimeout, stFullQW)) :=
  c8_generate_timeout envW stFullQW (by decide)

/-! ### Invariant preservation -/

lemma inv_clock {env : PoolEnv} {s : PoolState} (I : PoolInv env s) (c : Nat) :
    PoolInv env { s with clock := c } :=
  ⟨I.acct, I.live_le, I.cap_le, I.conns_le⟩

lemma inv_close {env : PoolEnv} {s : PoolState} (hid : Nat) (I : PoolInv env s) :
    PoolInv env (ChannelPool.Close env s hid).2 := by
  rcases hc : (heapGet s hid).conn with _ | r
  · rw [close_of_closed hc]
    exact I
  · have h : heapGet s hid = ⟨some r, (heapGet s hid).t, (heapGet s hid).pool⟩ := by
      rw [← hc]
    rw [close_of_live h]
    have hlive : 0 < liveHandles s := liveHandles_pos_of_live hc
    have hq1 : 0 < s.queueLen := lt_of_lt_of_le hlive I.live_le
    have hlc := liveHandles_close_at hc
    have hacct := I.acct
    have hll := I.live_le
    have hcap := I.cap_le
    refine ⟨?_, ?_, ?_, ?_⟩
    · show s.created = (s.closedLog ++ [r]).length + (s.queueLen - 1)
      simp only [List.length_append, List.length_cons, List.length_nil]
      omega
    · show liveHandles (heapSet s hid { conn := none, t := 0, pool := false }) ≤
        s.queueLen - 1
      omega
    · show s.queueLen - 1 ≤ env.queueCap
      omega
    · exact I.conns_le

lemma inv_setConnNil {env : PoolEnv} {s : PoolState} (hid : Nat) (I : PoolInv env s) :
    PoolInv env (setConnNil s hid) := by
  refine ⟨I.acct, ?_, I.cap_le, I.conns_le⟩
  calc liveHandles (setConnNil s hid) ≤ liveHandles s :=
        countP_set_le rfl s.heap hid
    _ ≤ s.queueLen := I.live_le

lemma inv_generate {env : PoolEnv} {s : PoolState} (I : PoolInv env s) :
    PoolInv env (ChannelPool.generateConn env s).2 := by
  unfold ChannelPool.generateConn
  by_cases hq : s.queueLen < env.queueCap
  · rw [if_pos hq]
    rcases hf : env.factory s.factoryCalls with e | c <;> simp only [hf]
    · exact ⟨I.acct, I.live_le, I.cap_le, I.conns_le⟩
    · simp only [tick, NewIdleConn]
      have hacct := I.acct
      have hll := I.live_le
      refine ⟨?_, ?_, hq, I.conns_le⟩
      · show s.created + 1 = s.closedLog.length + (s.queueLen + 1)
        omega
      · show (s.heap ++ [({ conn := some c, t := s.clock, pool := true } : IdleConn)]).countP
            (fun h : IdleConn => h.conn.isSome) ≤ s.queueLen + 1
        rw [List.countP_append]
        have hls : liveHandles s = s.heap.countP (fun h : IdleConn => h.conn.isSome) := rfl
        simp only [List.countP_cons, List.countP_nil, Option.isSome_some, if_true]
        omega
  · rw [if_neg hq]
    exact I

lemma inv_put {env : PoolEnv} {s : PoolState} (hid : Nat) (I : PoolInv env s) :
    PoolInv env (ChannelPool.Put env s hid).2 := by
  obtain ⟨q, hq, hlen⟩ := I.conns_le
  rcases hc : (heapGet s hid).conn with _ | r
  · rw [put_of_closed hc]
    exact I
  · have h : heapGet s hid = ⟨some r, (heapGet s hid).t, (heapGet s hid).pool⟩ := by
      rw [← hc]
    by_cases ht : (heapGet s hid).t < s.initTime
    · rw [put_of_stale hq ht]
      exact inv_close hid I
    · have hlc := liveHandles_close_at hc
      have hll := I.live_le
      by_cases hl : q.length < env.maxCap
      · rw [put_enqueue h ht hq hl]
        refine ⟨I.acct, ?_, I.cap_le, ?_⟩
        · show ((s.heap.set hid { conn := none, t := 0, pool := false }) ++
              [({ conn := some r, t := s.clock, pool := true } : IdleConn)]).countP
              (fun h : IdleConn => h.conn.isSome) ≤ s.queueLen
          rw [List.countP_append]
          have hset : liveHandles (heapSet s hid { conn := none, t := 0, pool := false }) =
              (s.heap.set hid { conn := none, t := 0, pool := false }).countP
                (fun h : IdleConn => h.conn.isSome) := rfl
          simp only [List.countP_cons, List.countP_nil, Option.isSome_some, if_true]
          omega
        · exact ⟨q ++ [s.heap.length], rfl, by
            simp only [List.length_append, List.length_cons, List.length_nil]
            omega⟩
      · rw [put_full h ht hq hl]
        refine ⟨I.acct, ?_, I.cap_le, ⟨q, hq, hlen⟩⟩
        show ((s.heap.set hid { conn := none, t := 0, pool := false }) ++
            [({ conn := some r, t := s.clock, pool := true } : IdleConn)]).countP
            (fun h : IdleConn => h.conn.isSome) ≤ s.queueLen
        rw [List.countP_append]
        have hset : liveHandles (heapSet s hid { conn := none, t := 0, pool := false }) =
            (s.heap.set hid { conn := none, t := 0, pool := false }).countP
              (fun h : IdleConn => h.conn.isSome) := rfl
        simp only [List.countP_cons, List.countP_nil, Option.isSome_some, if_true]
        omega

lemma inv_get {env : PoolEnv} {s : PoolState} (I : PoolInv env s) :
    PoolInv env (ChannelPool.Get env s).2 := by
  obtain ⟨q, hq, hlen⟩ := I.conns_le
  unfold ChannelPool.Get
  simp only [hq]
  cases q with
  | nil => exact inv_generate I
  | cons hid rest =>
    have hK : ∀ s1 : PoolState, PoolInv env s1 →
        PoolInv env ((if (heapGet s1 hid).conn.isNone = true then
          ChannelPool.generateConn env s1 else (.ok hid, s1)).2) := by
      intro s1 I1
      split
      · exact inv_generate I1
      · exact I1
    apply hK
    have I0 : PoolInv env { s with conns := some rest } := by
      refine ⟨I.acct, I.live_le, I.cap_le, ⟨rest, rfl, ?_⟩⟩
      simp only [List.length_cons] at hlen
      omega
    have hK2 : ∀ s2 : PoolState, PoolInv env s2 →
        PoolInv env (if (ChannelPool.Ping env s2 hid).isSome = true then
          setConnNil (ChannelPool.Close env s2 hid).2 hid else s2) := by
      intro s2 I2
      split
      · exact inv_setConnNil hid (inv_close hid I2)
      · exact I2
    split
    · apply hK2
      split
      · simp only [tick]
        split
        · exact inv_setConnNil hid (inv_close hid (inv_clock I0 _))
        · exact inv_clock I0 _
      · exact I0
    · exact I0

lemma inv_drain {env : PoolEnv} (q : List Nat) :
    ∀ s : PoolState, PoolInv env s → PoolInv env (drainClose env q s) := by
  induction q with
  | nil => intro s I; exact I
  | cons hid rest ih =>
    intro s I
    exact ih _ (inv_close hid I)

lemma inv_release {env : PoolEnv} {s : PoolState} (I : PoolInv env s) :
    PoolInv env (ChannelPool.Release env s) := by
  unfold ChannelPool.Release
  simp only [tick]
  have I3 : PoolInv env
      { s with conns := some [], clock := s.clock + 1, initTime := s.clock } :=
    ⟨I.acct, I.live_le, I.cap_le, ⟨[], rfl, Nat.zero_le _⟩⟩
  cases hc : s.conns with
  | none => exact I3
  | some q => exact inv_drain q _ I3

lemma inv_step {env : PoolEnv} {s s' : PoolState} (hs : Step env s s')
    (I : PoolInv env s) : PoolInv env s' := by
  cases hs with
  | get => exact inv_get I
  | put hid => exact inv_put hid I
  | close hid => exact inv_close hid I
  | release => exact inv_release I
  | advance d => exact inv_clock I _

lemma inv_reachable {env : PoolEnv} {s0 s : PoolState}
    (hr : Reachable env s0 s) (I : PoolInv env s0) : PoolInv env s := by
  induction hr with
  | refl => exact I
  | tail _ hstep ih => exact inv_step hstep ih

/-! ### Constructor facts -/

lemma generate_conns (env : PoolEnv) (s : PoolState) :
    (ChannelPool.generateConn env s).2.conns = s.conns := by
  unfold ChannelPool.generateConn
  by_cases hq : s.queueLen < env.queueCap
  · rw [if_pos hq]
    rcases hf : env.factory s.factoryCalls with e | c <;> simp [hf, tick, NewIdleConn]
  · rw [if_neg hq]

lemma fillLoop_inv {env : PoolEnv} :
    ∀ (n : Nat) (s : PoolState), PoolInv env s →
      ChannelPool.Len s + n ≤ env.maxCap →
      ∀ s', fillLoop env n s = .ok s' → PoolInv env s' := by
  intro n
  induction n with
  | zero =>
    intro s I _ s' h
    cases h
    exact I
  | succ n ih =>
    intro s I hlen s' h
    rw [fillLoop] at h
    rcases hg : ChannelPool.generateConn env s with ⟨res, s1⟩
    rcases res with e | hid <;> rw [hg] at h
    · exact absurd h (by simp)
    · obtain ⟨q, hq, _⟩ := I.conns_le
      have hs1conns : s1.conns = some q := by
        rw [show s1 = (ChannelPool.generateConn env s).2 by rw [hg], generate_conns, hq]
      have I1 : PoolInv env s1 := by
        rw [show s1 = (ChannelPool.generateConn env s).2 by rw [hg]]
        exact inv_generate I
      have hlens : ChannelPool.Len s = q.length := by
        unfold ChannelPool.Len
        rw [hq]
      have Ipush : PoolInv env (pushConn s1 hid) := by
        unfold pushConn
        rw [hs1conns]
        refine ⟨I1.acct, I1.live_le, I1.cap_le, ⟨q ++ [hid], rfl, ?_⟩⟩
        simp only [List.length_append, List.length_cons, List.length_nil]
        omega
      have hlenpush : ChannelPool.Len (pushConn s1 hid) = q.length + 1 := by
        unfold pushConn ChannelPool.Len
        rw [hs1conns]
        simp
      exact ih (pushConn s1 hid) Ipush (by omega) s' h

/-- Facts established by a successful `NewChannelPool`: the pool invariant and
the capacities of the two channels in terms of the configuration. -/
lemma new_ok_facts {cfg : Config} {clk : Nat} {env : PoolEnv} {s : PoolState}
    (hnew : NewChannelPool cfg clk = .ok (env, s)) :
    PoolInv env s ∧ env.maxCap = cfg.MaxCap.toNat ∧
      env.queueCap =
        (if cfg.ConcurrentBase ≤ 0 then 2 else cfg.ConcurrentBase).toNat *
          cfg.MaxCap.toNat := by
  unfold NewChannelPool at hnew
  by_cases hval : cfg.InitialCap < 0 ∨ cfg.MaxCap ≤ 0 ∨ cfg.InitialCap > cfg.MaxCap
  · rw [if_pos hval] at hnew
    exact absurd hnew (by simp)
  · rw [if_neg hval] at hnew
    rcases hF : cfg.Factory with _ | f <;> simp only [hF] at hnew
    · exact absurd hnew (by simp)
    · rcases hC : cfg.Close with _ | cl <;> simp only [hC] at hnew
      · exact absurd hnew (by simp)
      · rcases hfill : fillLoop
            { maxCap := cfg.MaxCap.toNat,
              queueCap := (if cfg.ConcurrentBase ≤ 0 then 2 else cfg.ConcurrentBase).toNat *
                cfg.MaxCap.toNat,
              idleTimeout := cfg.IdleTimeout,
              poolTimeout := if cfg.PoolTimeout ≤ 0 then PoolTimeoutInit else cfg.PoolTimeout,
              idleCheckFrequency :=
                if cfg.IdleCheckFrequency = 0 then IdleCheckInit else cfg.IdleCheckFrequency,
              factory := f, close := cl, ping := cfg.Ping }
            cfg.InitialCap.toNat
            { clock := clk + 1, initTime := clk, queueLen := 0, conns := some [],
              heap := [], factoryCalls := 0, created := 0, closedLog := [] }
          with e | s3 <;> simp only [tick, hfill] at hnew
        · exact absurd hnew (by simp)
        · have hinj := hnew
          simp only [Except.ok.injEq, Prod.mk.injEq] at hinj
          obtain ⟨henv, hs⟩ := hinj
          have hinit : cfg.InitialCap.toNat ≤ cfg.MaxCap.toNat := by
            push_neg at hval
            omega
          have hbase : 1 ≤ (if cfg.ConcurrentBase ≤ 0 then 2 else cfg.ConcurrentBase).toNat := by
            by_cases hb : cfg.ConcurrentBase ≤ 0 <;> simp [hb] <;> omega
          have I2 : PoolInv
              { maxCap := cfg.MaxCap.toNat,
                queueCap := (if cfg.ConcurrentBase ≤ 0 then 2 else cfg.ConcurrentBase).toNat *
                  cfg.MaxCap.toNat,
                idleTimeout := cfg.IdleTimeout,
                poolTimeout := if cfg.PoolTimeout ≤ 0 then PoolTimeoutInit else cfg.PoolTimeout,
                idleCheckFrequency :=
                  if cfg.IdleCheckFrequency = 0 then IdleCheckInit else cfg.IdleCheckFrequency,
                factory := f, close := cl, ping := cfg.Ping }
              { clock := clk + 1, initTime := clk, queueLen := 0, conns := some [],
                heap := [], factoryCalls := 0, created := 0, closedLog := [] } :=
            ⟨rfl, Nat.le_refl 0, Nat.zero_le _, ⟨[], rfl, Nat.zero_le _⟩⟩
          have I3 := fillLoop_inv cfg.InitialCap.toNat _ I2
            (by
              show 0 + cfg.InitialCap.toNat ≤ cfg.MaxCap.toNat
              omega) s3 hfill
          subst henv
          subst hs
          exact ⟨I3, rfl, rfl⟩

/-- C2: in every state reachable from a freshly constructed pool by any
sequence of Get/Put/Close/Release operations (and passage of time), the number
of live resources — created by the factory and not yet passed to the close
callback — never exceeds the effective `ConcurrentBase` times `MaxCap`, and
the idle queue never holds more than `MaxCap` handles. -/
theorem c2_admission_invariant (cfg : Config) (clk : Nat) (env : PoolEnv)
    (s0 s : PoolState)
    (hnew : NewChannelPool cfg clk = .ok (env, s0))
    (hr : Reachable env s0 s) :
    liveResources s ≤
      (if cfg.ConcurrentBase ≤ 0 then 2 else cfg.ConcurrentBase).toNat *
        cfg.MaxCap.toNat ∧
    ChannelPool.Len s ≤ cfg.MaxCap.toNat := by
  obtain ⟨I0, hmax, hcap⟩ := new_ok_facts hnew
  have I := inv_reachable hr I0
  constructor
  · have hacct := I.acct
    have hc := I.cap_le
    unfold liveResources
    rw [← hcap]
    omega
  · obtain ⟨q, hq, hlen⟩ := I.conns_le
    have hLq : ChannelPool.Len s = q.length := by
      unfold ChannelPool.Len
      rw [hq]
    rw [hLq, ← hmax]
    exact hlen

lemma generate_fst_ne_poolClosed (env : PoolEnv) (s : PoolState) :
    (ChannelPool.generateConn env s).1 ≠ .error .poolClosed := by
  unfold ChannelPool.generateConn
  by_cases hq : s.queueLen < env.queueCap
  · rw [if_pos hq]
    rcases hf : env.factory s.factoryCalls with e | c <;> simp [hf, tick, NewIdleConn]
  · rw [if_neg hq]
    simp

lemma get_fst_ne_poolClosed {env : PoolEnv} {s : PoolState} {q : List Nat}
    (hq : s.conns = some q) :
    (ChannelPool.Get env s).1 ≠ .error .poolClosed := by
  unfold ChannelPool.Get
  simp only [hq]
  cases q with
  | nil => exact generate_fst_ne_poolClosed env s
  | cons hid rest =>
    have hK : ∀ s1 : PoolState,
        ((if (heapGet s1 hid).conn.isNone = true then
          ChannelPool.generateConn env s1 else (.ok hid, s1)).1) ≠
          .error .poolClosed := by
      intro s1
      split
      · exact generate_fst_ne_poolClosed env _
      · simp
    exact hK _

lemma close_fst_ne_poolClosed (env : PoolEnv) (s : PoolState) (hid : Nat) :
    (ChannelPool.Close env s hid).1 ≠ some .poolClosed := by
  rcases close_fst_shape env s hid with h | h | ⟨c, h⟩ <;> rw [h] <;> simp

lemma put_fst_ne_poolClosed (env : PoolEnv) (s : PoolState) (hid : Nat) :
    (ChannelPool.Put env s hid).1 ≠ some .poolClosed := by
  rcases hc : (heapGet s hid).conn with _ | r
  · rw [put_of_closed hc]
    simp
  · have h : heapGet s hid = ⟨some r, (heapGet s hid).t, (heapGet s hid).pool⟩ := by
      rw [← hc]
    cases hcs : s.conns with
    | none =>
      rw [put_of_nil_conns hcs]
      exact close_fst_ne_poolClosed env s hid
    | some q =>
      by_cases ht : (heapGet s hid).t < s.initTime
      · rw [put_of_stale hcs ht]
        exact close_fst_ne_poolClosed env s hid
      · by_cases hl : q.length < env.maxCap
        · rw [put_enqueue h ht hcs hl]
          simp
        · rw [put_full h ht hcs hl]
          simp

/-- C10: every pool returned by the constructor keeps a non-nil idle channel
forever (`Release` swaps in a fresh non-nil channel instead of nil), so in
every reachable state `Get` never returns `ErrPoolClosed` and `Put` never
returns `ErrPoolClosed` — the `PoolClosed` branch is unreachable. -/
theorem c10_no_pool_closed (cfg : Config) (clk : Nat) (env : PoolEnv)
    (s0 s : PoolState)
    (hnew : NewChannelPool cfg clk = .ok (env, s0))
    (hr : Reachable env s0 s) :
    s.conns.isSome ∧
    (ChannelPool.Get env s).1 ≠ .error .poolClosed ∧
    ∀ hid, (ChannelPool.Put env s hid).1 ≠ some .poolClosed := by
  obtain ⟨I0, _, _⟩ := new_ok_facts hnew
  have I := inv_reachable hr I0
  obtain ⟨q, hq, _⟩ := I.conns_le
  exact ⟨by rw [hq]; rfl, get_fst_ne_poolClosed hq,
    fun hid => put_fst_ne_poolClosed env s hid⟩

/-- Fixture: configuration with `InitialCap = 1`, `MaxCap = 2`, defaulted
`ConcurrentBase` (hence 2), an always-succeeding factory. -/
def cfgW : Config :=
  { InitialCap := 1, MaxCap := 2, ConcurrentBase := 0,
    Factory := some (fun n => .ok n), Close := some (fun _ => none), Ping := none,
    IdleTimeout := 0, PoolTimeout := 0, IdleCheckFrequency := 0 }

/-- Fixture: the environment `NewChannelPool cfgW 0` produces. -/
def envNewW : PoolEnv :=
  { maxCap := 2, queueCap := 4, idleTimeout := 0, poolTimeout := PoolTimeoutInit,
    idleCheckFrequency := IdleCheckInit, factory := fun n => .ok n,
    close := fun _ => none, ping := none }

/-- Fixture: the state `NewChannelPool cfgW 0` produces. -/
def stNewW : PoolState :=
  { clock := 2, initTime := 0, queueLen := 1, conns := some [0],
    heap := [⟨some 0, 1, true⟩], factoryCalls := 1, created := 1, closedLog := [] }

/-- Witness for C2 at a concrete input: the pool built from `cfgW`, after one
further `Get`, respects both bounds. -/
theorem c2_admission_invariant_witness :
    liveResources (ChannelPool.Get envNewW stNewW).2 ≤
      (if cfgW.ConcurrentBase ≤ 0 then 2 else cfgW.ConcurrentBase).toNat *
        cfgW.MaxCap.toNat ∧
    ChannelPool.Len (ChannelPool.Get envNewW stNewW).2 ≤ cfgW.MaxCap.toNat :=
  c2_admission_invariant cfgW 0 envNewW stNewW (ChannelPool.Get envNewW stNewW).2 rfl
    (Relation.ReflTransGen.single (Step.get stNewW))

/-- Witness for C10 at a concrete input: the freshly built pool. -/
theorem c10_no_pool_closed_witness :
    stNewW.conns.isSome ∧
    (ChannelPool.Get envNewW stNewW).1 ≠ .error .poolClosed ∧
    ∀ hid, (ChannelPool.Put envNewW stNewW hid).1 ≠ some .poolClosed :=
  c10_no_pool_closed cfgW 0 envNewW stNewW stNewW rfl Relation.ReflTransGen.refl

lemma fillLoop_ok {env : PoolEnv} (hfok : ∀ n, ∃ r, env.factory n = .ok r) :
    ∀ (n : Nat) (s : PoolState) (q : List Nat), s.conns = some q →
      s.queueLen + n ≤ env.queueCap →
      ∃ s', fillLoop env n s = .ok s' ∧
        ChannelPool.Len s' = ChannelPool.Len s + n := by
  intro n
  induction n with
  | zero =>
    intro s q hq _
    exact ⟨s, rfl, by omega⟩
  | succ n ih =>
    intro s q hq hcap
    obtain ⟨r, hr⟩ := hfok s.factoryCalls
    have hlt : s.queueLen < env.queueCap := by omega
    rw [fillLoop, generate_factory_ok hlt hr]
    have hpc : pushConn
        { s with queueLen := s.queueLen + 1, factoryCalls := s.factoryCalls + 1,
                 clock := s.clock + 1, created := s.created + 1,
                 heap := s.heap ++ [{ conn := some r, t := s.clock, pool := true }] }
        s.heap.length =
      { s with queueLen := s.queueLen + 1, factoryCalls := s.factoryCalls + 1,
               clock := s.clock + 1, created := s.created + 1,
               heap := s.heap ++ [{ conn := some r, t := s.clock, pool := true }],
               conns := some (q ++ [s.heap.length]) } := by
      unfold pushConn
      simp only [hq]
    obtain ⟨s', hfill, hlen⟩ := ih
      (pushConn
        { s with queueLen := s.queueLen + 1, factoryCalls := s.factoryCalls + 1,
                 clock := s.clock + 1, created := s.created + 1,
                 heap := s.heap ++ [{ conn := some r, t := s.clock, pool := true }] }
        s.heap.length)
      (q ++ [s.heap.length])
      (by rw [hpc])
      (by
        rw [hpc]
        show s.queueLen + 1 + n ≤ env.queueCap
        omega)
    refine ⟨s', hfill, ?_⟩
    rw [hlen]
    have h1 : ChannelPool.Len
        (pushConn
          { s with queueLen := s.queueLen + 1, factoryCalls := s.factoryCalls + 1,
                   clock := s.clock + 1, created := s.created + 1,
                   heap := s.heap ++ [{ conn := some r, t := s.clock, pool := true }] }
          s.heap.length) = q.length + 1 := by
      rw [hpc]
      unfold ChannelPool.Len
      simp
    have h2 : ChannelPool.Len s = q.length := by
      unfold ChannelPool.Len
      rw [hq]
    omega

/-- The three construction-time validation failures of `NewChannelPool`
(capacity bounds, nil factory, nil close callback). -/
def isInvalidConfigErr (res : Except ConstructErr (PoolEnv × PoolState)) : Prop :=
  res = .error .invalidCapacity ∨ res = .error .invalidFactory ∨
    res = .error .invalidClose

/-- C7: `NewChannelPool` fails with one of the invalid-config errors exactly
when `InitialCap < 0`, `MaxCap ≤ 0`, `InitialCap > MaxCap`, the factory is
nil, or the close callback is nil; and for every valid configuration whose
factory always succeeds, construction succeeds with `Len` equal to
`InitialCap`. -/
theorem c7_new_channel_pool_spec (cfg : Config) (clk : Nat) :
    (isInvalidConfigErr (NewChannelPool cfg clk) ↔
      (cfg.InitialCap < 0 ∨ cfg.MaxCap ≤ 0 ∨ cfg.InitialCap > cfg.MaxCap ∨
        cfg.Factory = none ∨ cfg.Close = none)) ∧
    (∀ f, cfg.Factory = some f → (∀ n, ∃ r, f n = .ok r) →
      ¬(cfg.InitialCap < 0 ∨ cfg.MaxCap ≤ 0 ∨ cfg.InitialCap > cfg.MaxCap) →
      cfg.Close ≠ none →
      ∃ env s, NewChannelPool cfg clk = .ok (env, s) ∧
        ChannelPool.Len s = cfg.InitialCap.toNat) := by
  by_cases hval : cfg.InitialCap < 0 ∨ cfg.MaxCap ≤ 0 ∨ cfg.InitialCap > cfg.MaxCap
  · have hres : NewChannelPool cfg clk = .error .invalidCapacity := by
      unfold NewChannelPool
      rw [if_pos hval]
    constructor
    · exact iff_of_true (Or.inl hres)
        (by rcases hval with h | h | h
            · exact Or.inl h
            · exact Or.inr (Or.inl h)
            · exact Or.inr (Or.inr (Or.inl h)))
    · intro f _ _ hval' _
      exact absurd hval hval'
  · rcases hF : cfg.Factory with _ | f
    · have hres : NewChannelPool cfg clk = .error .invalidFactory := by
        unfold NewChannelPool
        rw [if_neg hval]
        simp only [hF]
      constructor
      · exact iff_of_true (Or.inr (Or.inl hres))
          (Or.inr (Or.inr (Or.inr (Or.inl rfl))))
      · intro f' hf'
        exact Option.noConfusion hf'
    · rcases hC : cfg.Close with _ | cl
      · have hres : NewChannelPool cfg clk = .error .invalidClose := by
          unfold NewChannelPool
          rw [if_neg hval]
          simp only [hF, hC]
        constructor
        · exact iff_of_true (Or.inr (Or.inr hres))
            (Or.inr (Or.inr (Or.inr (Or.inr rfl))))
        · intro f' _ _ _ hcl
          exact absurd rfl hcl
      · have hres : NewChannelPool cfg clk =
            (match fillLoop
                { maxCap := cfg.MaxCap.toNat,
                  queueCap := (if cfg.ConcurrentBase ≤ 0 then 2 else cfg.ConcurrentBase).toNat *
                    cfg.MaxCap.toNat,
                  idleTimeout := cfg.IdleTimeout,
                  poolTimeout := if cfg.PoolTimeout ≤ 0 then PoolTimeoutInit else cfg.PoolTimeout,
                  idleCheckFrequency :=
                    if cfg.IdleCheckFrequency = 0 then IdleCheckInit else cfg.IdleCheckFrequency,
                  factory := f, close := cl, ping := cfg.Ping }
                cfg.InitialCap.toNat
                { clock := clk + 1, initTime := clk, queueLen := 0, conns := some [],
                  heap := [], factoryCalls := 0, created := 0, closedLog := [] } with
              | .error e => .error (.fillFailed e)
              | .ok s3 => .ok
                  ({ maxCap := cfg.MaxCap.toNat,
                     queueCap := (if cfg.ConcurrentBase ≤ 0 then 2 else cfg.ConcurrentBase).toNat *
                       cfg.MaxCap.toNat,
                     idleTimeout := cfg.IdleTimeout,
                     poolTimeout := if cfg.PoolTimeout ≤ 0 then PoolTimeoutInit else cfg.PoolTimeout,
                     idleCheckFrequency :=
                       if cfg.IdleCheckFrequency = 0 then IdleCheckInit else cfg.IdleCheckFrequency,
                     factory := f, close := cl, ping := cfg.Ping }, s3)) := by
          unfold NewChannelPool
          rw [if_neg hval]
          simp only [hF, hC, tick]
        constructor
        · constructor
          · intro h
            exfalso
            rcases hfill : fillLoop
                { maxCap := cfg.MaxCap.toNat,
                  queueCap := (if cfg.ConcurrentBase ≤ 0 then 2 else cfg.ConcurrentBase).toNat *
                    cfg.MaxCap.toNat,
                  idleTimeout := cfg.IdleTimeout,
                  poolTimeout := if cfg.PoolTimeout ≤ 0 then PoolTimeoutInit else cfg.PoolTimeout,
                  idleCheckFrequency :=
                    if cfg.IdleCheckFrequency = 0 then IdleCheckInit else cfg.IdleCheckFrequency,
                  factory := f, close := cl, ping := cfg.Ping }
                cfg.InitialCap.toNat
                { clock := clk + 1, initTime := clk, queueLen := 0, conns := some [],
                  heap := [], factoryCalls := 0, created := 0, closedLog := [] }
              with e | s3 <;> rw [hres] at h <;> simp only [hfill] at h <;>
              rcases h with h | h | h <;> simp at h
          · intro h
            exfalso
            rcases h with h | h | h | h | h
            · exact hval (Or.inl h)
            · exact hval (Or.inr (Or.inl h))
            · exact hval (Or.inr (Or.inr h))
            · exact Option.noConfusion h
            · exact Option.noConfusion h
        · intro f' hf' hfok hval' hcl
          have hff : f = f' := by
            injection hf'
          subst hff
          have hbase : 1 ≤ (if cfg.ConcurrentBase ≤ 0 then 2 else cfg.ConcurrentBase).toNat := by
            by_cases hb : cfg.ConcurrentBase ≤ 0 <;> simp [hb] <;> omega
          have hinit : cfg.InitialCap.toNat ≤ cfg.MaxCap.toNat := by
            push_neg at hval
            omega
          have hmul : cfg.MaxCap.toNat ≤
              (if cfg.ConcurrentBase ≤ 0 then 2 else cfg.ConcurrentBase).toNat *
                cfg.MaxCap.toNat :=
            Nat.le_mul_of_pos_left cfg.MaxCap.toNat (by omega)
          obtain ⟨s', hfill, hlen⟩ := @fillLoop_ok
              { maxCap := cfg.MaxCap.toNat,
                queueCap := (if cfg.ConcurrentBase ≤ 0 then 2 else cfg.ConcurrentBase).toNat *
                  cfg.MaxCap.toNat,
                idleTimeout := cfg.IdleTimeout,
                poolTimeout := if cfg.PoolTimeout ≤ 0 then PoolTimeoutInit else cfg.PoolTimeout,
                idleCheckFrequency :=
                  if cfg.IdleCheckFrequency = 0 then IdleCheckInit else cfg.IdleCheckFrequency,
                factory := f, close := cl, ping := cfg.Ping }
            hfok cfg.InitialCap.toNat
            { clock := clk + 1, initTime := clk, queueLen := 0, conns := some [],
              heap := [], factoryCalls := 0, created := 0, closedLog := [] }
            [] rfl
            (by
              show 0 + cfg.InitialCap.toNat ≤
                (if cfg.ConcurrentBase ≤ 0 then 2 else cfg.ConcurrentBase).toNat *
                  cfg.MaxCap.toNat
              omega)
          refine ⟨{ maxCap := cfg.MaxCap.toNat,
                    queueCap := (if cfg.ConcurrentBase ≤ 0 then 2 else cfg.ConcurrentBase).toNat *
                      cfg.MaxCap.toNat,
                    idleTimeout := cfg.IdleTimeout,
                    poolTimeout := if cfg.PoolTimeout ≤ 0 then PoolTimeoutInit else cfg.PoolTimeout,
                    idleCheckFrequency :=
                      if cfg.IdleCheckFrequency = 0 then IdleCheckInit else cfg.IdleCheckFrequency,
                    factory := f, close := cl, ping := cfg.Ping }, s', ?_, ?_⟩
          · rw [hres, hfill]
          · rw [hlen]
            show ChannelPool.Len
              { clock := clk + 1, initTime := clk, queueLen := 0, conns := some [],
                heap := [], factoryCalls := 0, created := 0, closedLog := [] } +
                cfg.InitialCap.toNat = cfg.InitialCap.toNat
            show 0 + cfg.InitialCap.toNat = cfg.InitialCap.toNat
            omega

/-- Witness for C7 at a concrete input: the valid configuration `cfgW` with an
always-succeeding factory builds a pool with `Len = InitialCap = 1`. -/
theorem c7_new_channel_pool_spec_witness :
    ∃ env s, NewChannelPool cfgW 0 = .ok (env, s) ∧
      ChannelPool.Len s = cfgW.InitialCap.toNat :=
  (c7_new_channel_pool_spec cfgW 0).2 (fun n => .ok n) rfl (fun n => ⟨n, rfl⟩)
    (by decide) (by simp [cfgW])

/-- Witness for the amended C3 at a concrete input: the factory fails with
user error 7 and the token count is restored. -/
theorem c3_generate_failed_releases_token_witness :
    ChannelPool.generateConn envW stFreeW =
      (.error .connGenerateFailed, { stFreeW with factoryCalls := stFreeW.factoryCalls + 1 }) ∧
    (ChannelPool.generateConn envW stFreeW).2.queueLen = stFreeW.queueLen ∧
    (ChannelPool.generateConn envW stFreeW).2.created = stFreeW.created :=
  c3_generate_failed_releases_token envW stFreeW 7 (by decide) rfl

end GoPool
